import Mathlib

/-!
# Verification of the terminal music player core (Maidang1/tools)

Shallow embedding of the playback engine (`src/player/mod.rs`), the
application controller loop (`src/main.rs`) and the layout calculator
(`src/ui/layout.rs`), together with proofs about the properties stated in
the design document.

Modelling conventions:
* Machine integers (`u16`, `usize`, `u64`) become `Nat`.
* `f32` volume levels become `ℚ` (exact arithmetic; the claims are stated at
  a granularity of 0.05, far above `f32` rounding error).
* `Instant` timestamps and `Duration`s become `Nat` (an abstract clock); the
  current wall-clock time is an explicit argument of every operation that
  reads the clock in the source.
* A Rust expression that can panic (direct slice indexing, `unwrap`) is
  modelled with `Option`: `none` is the panic.
* The mpsc channels become explicit lists of messages returned by each
  operation; file-system access becomes an explicit `String → OpenOutcome`
  argument.
-/

/-! ## Data model (`src/common.rs`) -/

/-- `Track` from `src/common.rs`: id, file path, optional duration,
optional display title. -/
structure Track where
  id : Nat
  path : String
  duration : Option Nat
  title : Option String
deriving DecidableEq

/-- `PlaybackStatus` from `src/common.rs`. -/
inductive PlaybackStatus where
  | stopped
  | paused
  | playing
deriving DecidableEq

/-- `AppCommand` from `src/common.rs` (UI → player). -/
inductive AppCommand where
  | play (index : Nat) (path : String)
  | togglePlayPause
  | setVolume (v : ℚ)
deriving DecidableEq

/-- `AppEvent` from `src/common.rs` (player → UI). -/
inductive AppEvent where
  | trackStarted (index : Nat) (duration : Option Nat)
  | progress (position : Nat)
  | trackEnded
  | error (message : String)
deriving DecidableEq

/-! ## Application controller state (`src/main.rs`, `struct App`) -/

/-- The controller's state, from `struct App` in `src/main.rs`.  The channel
handles (`cmd_tx`, `evt_rx`), the tick timestamp, the waveform buffer, the
theme and the layout cache are not part of any claim and are omitted; sent
commands appear instead as explicit result lists of each operation. -/
structure App where
  tracks : List Track
  selected : Nat
  playing : Option Nat
  status : PlaybackStatus
  position : Nat
  total : Option Nat
  volume : ℚ
deriving DecidableEq

namespace App

/-- `App::new` from `src/main.rs`. -/
def new (tracks : List Track) : App :=
  { tracks := tracks
    selected := 0
    playing := none
    status := .stopped
    position := 0
    total := none
    volume := 1 }

end App

/-- One step of the controller's event-draining loop (`src/main.rs`,
`match evt { ... }` inside `run`).  Returns the updated state and the
commands sent on `cmd_tx`; `none` models the panic of the direct index
`app.tracks[next]` in the `TrackEnded` arm. -/
def stepEvent (app : App) : AppEvent → Option (App × List AppCommand)
  | .trackStarted index duration =>
      some ({ app with
                playing := some index
                status := .playing
                position := 0
                total := duration }, [])
  | .progress position => some ({ app with position := position }, [])
  | .trackEnded =>
      match app.playing with
      | some i =>
          let next := if i + 1 < app.tracks.length then i + 1 else i
          match app.tracks[next]? with
          | some t => some ({ app with selected := next }, [.play next t.path])
          | none => none
      | none => some (app, [])
  | .error _ => some ({ app with status := .stopped }, [])

/-- Folding a sequence of events into the controller state (the
`while let Ok(evt) = app.evt_rx.try_recv()` drain loop in `run`).  The sent
commands are discarded; `none` propagates a panic. -/
def foldEvents (app : App) : List AppEvent → Option App
  | [] => some app
  | e :: es =>
      match stepEvent app e with
      | some (a, _) => foldEvents a es
      | none => none

/-- The key codes distinguished by the controller's input `match` in `run`
(`src/main.rs`).  `down` covers `KeyCode::Down` and `'j'`; `up` covers
`KeyCode::Up` and `'k'`; `other` is the catch-all `_` arm.  `'q'` breaks the
loop without touching the state. -/
inductive Key where
  | q
  | down
  | up
  | enter
  | space
  | rbracket
  | lbracket
  | plus
  | minus
  | other
deriving DecidableEq

/-- The controller's keyboard dispatch from `run` (`src/main.rs`,
`match key.code { ... }`).  Returns the updated state together with the
commands sent on `cmd_tx`; `none` models a panic from the direct indices
`app.tracks[app.selected]`, `app.tracks[next]`, `app.tracks[prev]`. -/
def handleKey (app : App) : Key → Option (App × List AppCommand)
  | .q => some (app, [])
  | .down =>
      some (if app.selected + 1 < app.tracks.length then
              { app with selected := app.selected + 1 }
            else app, [])
  | .up =>
      some (if app.selected > 0 then
              { app with selected := app.selected - 1 }
            else app, [])
  | .enter =>
      match app.tracks[app.selected]? with
      | some t => some (app, [.play app.selected t.path])
      | none => none
  | .space => some (app, [.togglePlayPause])
  | .rbracket =>
      let next := if app.selected + 1 < app.tracks.length then
                    app.selected + 1
                  else app.selected
      match app.tracks[next]? with
      | some t => some ({ app with selected := next }, [.play next t.path])
      | none => none
  | .lbracket =>
      let prev := if app.selected > 0 then app.selected - 1 else 0
      match app.tracks[prev]? with
      | some t => some ({ app with selected := prev }, [.play prev t.path])
      | none => none
  | .plus =>
      let v := min (app.volume + 1/20) 2
      some ({ app with volume := v }, [.setVolume v])
  | .minus =>
      let v := max (app.volume - 1/20) 0
      some ({ app with volume := v }, [.setVolume v])
  | .other => some (app, [])

/-- Folding a sequence of key presses into the controller state, discarding
the sent commands; `none` propagates a panic. -/
def foldKeys (app : App) : List Key → Option App
  | [] => some app
  | k :: ks =>
      match handleKey app k with
      | some (a, _) => foldKeys a ks
      | none => none

/-! ## Playback engine (`src/player/mod.rs`) -/

/-- Result of opening and decoding a path in the engine's `Play` arm:
`File::open` failure, `Decoder::new` failure, or success with the decoded
source's optional total duration. -/
inductive OpenOutcome where
  | openFail
  | decodeFail
  | ok (duration : Option Nat)
deriving DecidableEq

/-- The engine thread's local state (`src/player/mod.rs`, the `let mut`
bindings of `start`): `sink` is `some isPaused` when a stream is loaded
(the rodio `Sink` with its pause flag), `volume` the current gain,
`startAt` the reference instant of the elapsed-time accounting and
`pausedAcc` the `paused_acc` duration. -/
structure EngineState where
  sink : Option Bool
  volume : ℚ
  startAt : Option Nat
  pausedAcc : Nat
deriving DecidableEq

/-- The engine state at thread start (`src/player/mod.rs`). -/
def engineInit : EngineState :=
  { sink := none, volume := 1, startAt := none, pausedAcc := 0 }

/-- One command of the engine's command-draining loop
(`src/player/mod.rs`, `match cmd { ... }`), with the wall clock `now` and
the file system `fs` explicit.  Note that in the `Play` arm the old sink is
taken and stopped first, that the failure arms `continue` without touching
`start_at`/`paused_acc`, and that on pause `paused_acc = t0.elapsed()` while
on resume `start_at = now - (t0.elapsed() - paused_acc)`. -/
def processCommand (fs : String → OpenOutcome) (now : Nat)
    (st : EngineState) : AppCommand → EngineState × List AppEvent
  | .play index path =>
      let st1 := { st with sink := none }
      match fs path with
      | .openFail => (st1, [.error ("无法打开文件: " ++ path)])
      | .decodeFail => (st1, [.error ("不支持的格式: " ++ path)])
      | .ok duration =>
          ({ st1 with sink := some false, startAt := some now, pausedAcc := 0 },
           [.trackStarted index duration])
  | .togglePlayPause =>
      match st.sink with
      | some isPaused =>
          if isPaused then
            ({ st with
                 sink := some false
                 startAt := st.startAt.map (fun t0 => now - ((now - t0) - st.pausedAcc)) },
             [])
          else
            ({ st with
                 sink := some true
                 pausedAcc := match st.startAt with
                              | some t0 => now - t0
                              | none => st.pausedAcc },
             [])
      | none => (st, [])
  | .setVolume v =>
      ({ st with volume := v }, [])

/-- The engine's periodic check after draining commands
(`src/player/mod.rs`, `if let Some(s) = &sink { ... }`): if the sink has
drained (`s.empty()`, an input here since it depends on the audio device)
emit `TrackEnded` and reset; otherwise emit `Progress` with position
`t0.elapsed()`. -/
def periodicTick (now : Nat) (drained : Bool)
    (st : EngineState) : EngineState × List AppEvent :=
  match st.sink with
  | some _ =>
      if drained then
        ({ st with sink := none, startAt := none, pausedAcc := 0 }, [.trackEnded])
      else
        match st.startAt with
        | some t0 => (st, [.progress (now - t0)])
        | none => (st, [])
  | none => (st, [])

/-- What `player::start` itself does (`src/player/mod.rs`): it spawns the
engine thread and returns; `returned` is the value `start` hands to its
caller and `threadPanicsAtInit` whether the spawned thread's
`OutputStream::try_default().unwrap()` panics.  In the source `start`
always ends in `Ok(handle)`; the device initialization happens only inside
the spawned closure. -/
structure StartOutcome where
  returned : Except String Unit
  threadPanicsAtInit : Bool

/-- `player::start` as a function of whether an audio output device is
available (`OutputStream::try_default()` succeeding). -/
def playerStart (deviceOk : Bool) : StartOutcome :=
  { returned := .ok (), threadPanicsAtInit := !deviceOk }

/-- The position the specification prescribes for a `Progress` event:
wall-clock time since the track started minus the accumulated paused
duration ("compute elapsed playback time (wall-clock since start, minus
accumulated paused duration)"). -/
def specProgressPosition (startTime pausedDuration now : Nat) : Nat :=
  (now - startTime) - pausedDuration

/-! ## Layout calculator (`src/ui/layout.rs`) -/

/-- `ratatui::layout::Rect` (x, y, width, height). -/
structure Rect where
  x : Nat
  y : Nat
  width : Nat
  height : Nat
deriving DecidableEq

/-- `AppLayout` from `src/ui/layout.rs`. -/
structure AppLayout where
  now_playing : Rect
  track_list : Rect
  visualization : Option Rect
  playback_control : Rect
  status_bar : Rect
deriving DecidableEq

/-- `LayoutManager::is_compact_mode` from `src/ui/layout.rs`. -/
def is_compact_mode (width : Nat) : Bool := width < 80

/-- Modelled from the spec: the vertical `ratatui` `Layout::split` with
constraints `[Length npH, Min 5, Length pcH, Length 1]` is external library
code not present under `src/`.  Section 4.3 of the design document
describes it as allocating the fixed-height bands from the top and giving
the remainder to the middle content band; we model it as a partition of
`height` in which each fixed band receives its requested height clamped to
the space still available (fixed bands first, remainder to the middle, so
the middle may fall below its preferred 5 rows on very small terminals).
Returns the heights `(nowPlaying, middle, playbackControl, statusBar)`. -/
def splitVertical (npH pcH height : Nat) : Nat × Nat × Nat × Nat :=
  let s0 := min npH height
  let s2 := min pcH (height - s0)
  let s3 := min 1 (height - s0 - s2)
  let s1 := height - s0 - s2 - s3
  (s0, s1, s2, s3)

/-- Modelled from the spec: the horizontal `ratatui` `Layout::split` with
constraints `[Percentage 55, Percentage 45]` is external library code not
present under `src/`.  The first segment receives 55% of the width rounded
to the nearest cell and the second segment the rest. -/
def splitPercent55 (width : Nat) : Nat × Nat :=
  let t := (55 * width + 50) / 100
  (t, width - t)

/-- `LayoutManager::calculate_layout` from `src/ui/layout.rs`, for a
terminal area `Rect::new(0, 0, width, height)` (as built in
`App::get_layout`): fixed heights 3/5 for now-playing and 4/5 for playback
control depending on `height < 20`, status bar height 1, vertical split,
then in non-compact mode a 55/45 horizontal split of the middle band. -/
def calculate_layout (width height : Nat) : AppLayout :=
  let now_playing_height := if height < 20 then 3 else 5
  let playback_control_height := if height < 20 then 4 else 5
  let hs := splitVertical now_playing_height playback_control_height height
  let s0 := hs.1
  let s1 := hs.2.1
  let s2 := hs.2.2.1
  let s3 := hs.2.2.2
  let now_playing : Rect := ⟨0, 0, width, s0⟩
  let middle_area : Rect := ⟨0, s0, width, s1⟩
  let playback_control : Rect := ⟨0, s0 + s1, width, s2⟩
  let status_bar : Rect := ⟨0, s0 + s1 + s2, width, s3⟩
  if is_compact_mode width then
    { now_playing := now_playing
      track_list := middle_area
      visualization := none
      playback_control := playback_control
      status_bar := status_bar }
  else
    let ws := splitPercent55 width
    { now_playing := now_playing
      track_list := ⟨0, s0, ws.1, s1⟩
      visualization := some ⟨ws.1, s0, ws.2, s1⟩
      playback_control := playback_control
      status_bar := status_bar }

/-! ## C1: auto-advance on `TrackEnded` -/

/-- Controller state used to refute C1: a one-track list whose only track
(index 0, the last index) is playing. -/
def appC1 : App :=
  { tracks := [{ id := 0, path := "a.mp3", duration := none, title := none }]
    selected := 0
    playing := some 0
    status := .playing
    position := 5
    total := none
    volume := 1 }

/-- C1: counterexample.  With `playing = some 0` and `0` the last track
index, the claim says the controller takes no further action; the code
instead sends `Play{0, "a.mp3"}` again — it re-plays the last track. -/
theorem c1_counterexample :
    stepEvent appC1 .trackEnded = some (appC1, [.play 0 "a.mp3"]) ∧
    ([AppCommand.play 0 "a.mp3"] : List AppCommand) ≠ [] := by
  exact ⟨rfl, by decide⟩

/-- C1 (amended): folding `TrackEnded` with `playing = some i` for a valid
index `i`: if `i` is not the last index the controller sets
`selected = i + 1` and sends `Play{i+1}` for that track; if `i` is the last
index it sets `selected = i` and sends `Play{i}` for the same track again
(re-playing the last track; it does not wrap to index 0). -/
theorem c1_amended (a : App) (i : Nat) (hp : a.playing = some i)
    (hi : i < a.tracks.length) :
    (i + 1 < a.tracks.length →
      ∃ t, a.tracks[i + 1]? = some t ∧
        stepEvent a .trackEnded
          = some ({ a with selected := i + 1 }, [.play (i + 1) t.path])) ∧
    (i + 1 = a.tracks.length →
      ∃ t, a.tracks[i]? = some t ∧
        stepEvent a .trackEnded
          = some ({ a with selected := i }, [.play i t.path])) := by
  refine ⟨fun hlt => ?_, fun heq => ?_⟩
  · refine ⟨a.tracks[i + 1], List.getElem?_eq_getElem hlt, ?_⟩
    simp [stepEvent, hp, hlt, List.getElem?_eq_getElem hlt]
  · have hnlt : ¬ (i + 1 < a.tracks.length) := by omega
    refine ⟨a.tracks[i], List.getElem?_eq_getElem hi, ?_⟩
    simp [stepEvent, hp, hnlt, List.getElem?_eq_getElem hi]

/-- Controller state for the C1 witness: two tracks, track 0 playing. -/
def appC1w : App :=
  { tracks := [{ id := 0, path := "a.mp3", duration := none, title := none },
               { id := 1, path := "b.mp3", duration := none, title := none }]
    selected := 0
    playing := some 0
    status := .playing
    position := 0
    total := none
    volume := 1 }

/-- C1 (amended): witness at a concrete two-track state. -/
theorem c1_amended_witness :
    ∃ t, appC1w.tracks[0 + 1]? = some t ∧
      stepEvent appC1w .trackEnded
        = some ({ appC1w with selected := 0 + 1 }, [.play (0 + 1) t.path]) :=
  (c1_amended appC1w 0 rfl (by decide)).1 (by decide)

/-! ## C2: mirror-state invariant -/

/-- C2: counterexample.  After `TrackStarted{0}` followed by `Error`, the
controller is in the reachable state `playing = some 0`, `status = Stopped`
(the `Error` arm forces `status = Stopped` but leaves `playing` untouched),
so "playing is None iff status is Stopped" fails. -/
theorem c2_counterexample :
    foldEvents (App.new []) [.trackStarted 0 none, .error ("boom")]
      = some { tracks := [], selected := 0, playing := some 0,
               status := .stopped, position := 0, total := none, volume := 1 } ∧
    ¬ ((some 0 : Option Nat) = none ↔
        (PlaybackStatus.stopped = PlaybackStatus.stopped)) := by
  exact ⟨rfl, by decide⟩

/-- One event step preserves the forward mirror implication
"no track recorded implies status Stopped". -/
theorem stepEvent_mirror {a : App} {e : AppEvent} {p : App × List AppCommand}
    (hstep : stepEvent a e = some p)
    (h : a.playing = none → a.status = .stopped) :
    p.1.playing = none → p.1.status = .stopped := by
  cases e with
  | trackStarted index duration =>
      simp only [stepEvent, Option.some.injEq] at hstep
      subst hstep; simp
  | progress position =>
      simp only [stepEvent, Option.some.injEq] at hstep
      subst hstep; simpa using h
  | trackEnded =>
      cases hpl : a.playing with
      | none =>
          simp only [stepEvent, hpl, Option.some.injEq] at hstep
          subst hstep; simpa [hpl] using h
      | some i =>
          simp only [stepEvent, hpl] at hstep
          cases ht : a.tracks[if i + 1 < a.tracks.length then i + 1 else i]? with
          | none => rw [ht] at hstep; simp at hstep
          | some t =>
              rw [ht] at hstep
              simp only [Option.some.injEq] at hstep
              subst hstep
              simp [hpl]
  | error message =>
      simp only [stepEvent, Option.some.injEq] at hstep
      subst hstep; simp

/-- C2 (amended): in every state reachable by folding events from the
initial state, `playing = none` implies `status = Stopped`.  The converse
direction of the claimed equivalence is refuted by `c2_counterexample`. -/
theorem c2_amended (tracks : List Track) (es : List AppEvent) (s : App)
    (hfold : foldEvents (App.new tracks) es = some s) :
    s.playing = none → s.status = .stopped := by
  have key : ∀ (l : List AppEvent) (a b : App),
      foldEvents a l = some b →
      (a.playing = none → a.status = .stopped) →
      (b.playing = none → b.status = .stopped) := by
    intro l
    induction l with
    | nil =>
        intro a b hf ha
        simp only [foldEvents, Option.some.injEq] at hf
        subst hf; exact ha
    | cons e es ih =>
        intro a b hf ha
        simp only [foldEvents] at hf
        cases hstep : stepEvent a e with
        | none => rw [hstep] at hf; simp at hf
        | some p =>
            rw [hstep] at hf
            exact ih p.1 b hf (stepEvent_mirror hstep ha)
  exact key es (App.new tracks) s hfold (fun _ => rfl)

/-- C2 (amended): witness at the empty event sequence, with the
`playing = none` premise discharged at the initial state. -/
theorem c2_amended_witness : (App.new []).status = .stopped :=
  c2_amended [] [] (App.new []) rfl rfl

/-! ## C3: user-input edge cases -/

/-- C3: counterexample.  Pressing Enter with an empty track list is not a
no-op: the handler evaluates `app.tracks[app.selected]`, an out-of-bounds
index (a panic, modelled as `none`). -/
theorem c3_counterexample : handleKey (App.new []) .enter = none := rfl

/-- C3 (amended): with `selected` in bounds, Enter, `]` and `[` never fail;
`↑`, `↓` and Space never fail for any state, `↑` at index 0 and `↓` at the
last index are state no-ops, and Space merely forwards `TogglePlayPause`
(which the engine ignores when nothing is loaded).  With an empty track
list, however, Enter, `]` and `[` index the track list out of bounds — a
panic, not a silent no-op. -/
theorem c3_amended (a : App) :
    (a.selected < a.tracks.length →
      (handleKey a .enter).isSome ∧ (handleKey a .rbracket).isSome ∧
      (handleKey a .lbracket).isSome) ∧
    (handleKey a .up).isSome ∧
    (handleKey a .down).isSome ∧
    handleKey a .space = some (a, [.togglePlayPause]) ∧
    (a.selected = 0 → handleKey a .up = some (a, [])) ∧
    (a.selected + 1 ≥ a.tracks.length → handleKey a .down = some (a, [])) ∧
    (a.tracks = [] →
      handleKey a .enter = none ∧ handleKey a .rbracket = none ∧
      handleKey a .lbracket = none) := by
  refine ⟨fun hsel => ⟨?_, ?_, ?_⟩, rfl, rfl, rfl, fun h0 => ?_, fun hlast => ?_,
    fun hemp => ⟨?_, ?_, ?_⟩⟩
  · simp [handleKey, List.getElem?_eq_getElem hsel]
  · by_cases hlt : a.selected + 1 < a.tracks.length
    · simp [handleKey, hlt, List.getElem?_eq_getElem hlt]
    · simp [handleKey, hlt, List.getElem?_eq_getElem hsel]
  · by_cases hpos : a.selected > 0
    · have hprev : a.selected - 1 < a.tracks.length := by omega
      simp [handleKey, hpos, List.getElem?_eq_getElem hprev]
    · have hzero : (0 : Nat) < a.tracks.length := by omega
      simp [handleKey, hpos, List.getElem?_eq_getElem hzero]
  · simp [handleKey, h0]
  · have hnlt : ¬ (a.selected + 1 < a.tracks.length) := by omega
    simp [handleKey, hnlt]
  · simp [handleKey, hemp]
  · simp [handleKey, hemp]
  · simp [handleKey, hemp]

/-- Controller state for the C3 witness: a single-track list. -/
def appC3 : App :=
  App.new [{ id := 0, path := "a.mp3", duration := none, title := none }]

/-- C3 (amended): witness at a one-track state and at the empty state. -/
theorem c3_amended_witness :
    ((handleKey appC3 .enter).isSome ∧ (handleKey appC3 .rbracket).isSome ∧
      (handleKey appC3 .lbracket).isSome) ∧
    (handleKey (App.new []) .enter = none ∧
      handleKey (App.new []) .rbracket = none ∧
      handleKey (App.new []) .lbracket = none) :=
  ⟨(c3_amended appC3).1 (by decide),
   (c3_amended (App.new [])).2.2.2.2.2.2 (by decide)⟩

/-! ## C10: volume clamping -/

/-- C10: counterexample.  Ten `+` presses from volume 1.0 raise the volume
by 10 × 0.05 to 1.5 — the 2.0 ceiling is not reached, contradicting
"pressing `+` ten times yields a volume clamped at 2.0". -/
theorem c10_counterexample :
    (foldKeys (App.new []) (List.replicate 10 .plus)).map App.volume
      = some (3 / 2) ∧ (3 / 2 : ℚ) ≠ 2 := by
  constructor
  · norm_num [List.replicate, foldKeys, handleKey, App.new, min_def]
  · norm_num

/-- Any number of `+` presses keeps the volume at most `max v 2` where `v`
is the starting volume; the fold always succeeds. -/
theorem foldKeys_plus_le (n : Nat) (a : App) :
    ∃ b, foldKeys a (List.replicate n .plus) = some b ∧
      b.volume ≤ max a.volume 2 := by
  induction n generalizing a with
  | zero => exact ⟨a, rfl, le_max_left _ _⟩
  | succ n ih =>
      obtain ⟨b, hb, hbv⟩ := ih { a with volume := min (a.volume + 1/20) 2 }
      refine ⟨b, ?_, ?_⟩
      · simpa [List.replicate_succ, foldKeys, handleKey] using hb
      · calc b.volume ≤ max (min (a.volume + 1/20) 2) 2 := hbv
          _ ≤ 2 := by simp [max_le_iff, min_le_right]
          _ ≤ max a.volume 2 := le_max_right _ _

/-- Any number of `-` presses keeps the volume at least `min v 0` where `v`
is the starting volume; the fold always succeeds. -/
theorem foldKeys_minus_ge (n : Nat) (a : App) :
    ∃ b, foldKeys a (List.replicate n .minus) = some b ∧
      min a.volume 0 ≤ b.volume := by
  induction n generalizing a with
  | zero => exact ⟨a, rfl, min_le_left _ _⟩
  | succ n ih =>
      obtain ⟨b, hb, hbv⟩ := ih { a with volume := max (a.volume - 1/20) 0 }
      refine ⟨b, ?_, ?_⟩
      · simpa [List.replicate_succ, foldKeys, handleKey] using hb
      · calc min a.volume 0 ≤ 0 := min_le_right _ _
          _ ≤ min (max (a.volume - 1/20) 0) 0 := by simp
          _ ≤ b.volume := hbv

/-- C10 (amended): from volume 1.0, `n` presses of `+` never push the
volume above 2.0 and `n` presses of `-` never push it below 0.0; ten `+`
presses yield exactly 1.5 (not 2.0 — the ceiling is only reached after
twenty presses) and ten `-` presses yield exactly 0.5. -/
theorem c10_amended (n : Nat) :
    (∃ b, foldKeys (App.new []) (List.replicate n .plus) = some b ∧
        b.volume ≤ 2) ∧
    (∃ b, foldKeys (App.new []) (List.replicate n .minus) = some b ∧
        0 ≤ b.volume) ∧
    (foldKeys (App.new []) (List.replicate 10 .plus)).map App.volume
      = some (3 / 2) ∧
    (foldKeys (App.new []) (List.replicate 10 .minus)).map App.volume
      = some (1 / 2) := by
  refine ⟨?_, ?_, ?_, ?_⟩
  case refine_3 => norm_num [List.replicate, foldKeys, handleKey, App.new, min_def]
  case refine_4 => norm_num [List.replicate, foldKeys, handleKey, App.new, max_def]
  · obtain ⟨b, hb, hbv⟩ := foldKeys_plus_le n (App.new [])
    refine ⟨b, hb, le_trans hbv ?_⟩
    simp [App.new]
  · obtain ⟨b, hb, hbv⟩ := foldKeys_minus_ge n (App.new [])
    refine ⟨b, hb, le_trans ?_ hbv⟩
    simp [App.new]

/-- C10 (amended): witness at three presses. -/
theorem c10_amended_witness :
    ∃ b, foldKeys (App.new []) (List.replicate 3 .plus) = some b ∧
      b.volume ≤ 2 :=
  (c10_amended 3).1

/-! ## C4: pause/resume elapsed-time accounting -/

/-- C4 (code bug, evaluated at the failing input).  Trace: `Play` succeeds
at time 0, `TogglePlayPause` pauses at time 10, `TogglePlayPause` resumes
at time 12, and the periodic check fires at time 12.  The pause arm stores
`paused_acc = t0.elapsed()` (the elapsed time, 10) instead of the paused
duration, and the resume arm therefore rewinds `start_at` to the pause
instant, so the engine emits `Progress{2}` — exactly the 2 units spent
paused, with the 10 units actually played forgotten.  The specification
("wall-clock since start, minus accumulated paused duration") prescribes
position 10 here. -/
theorem c4_eval :
    (periodicTick 12 false
        (processCommand (fun _ => .ok none) 12
          (processCommand (fun _ => .ok none) 10
            (processCommand (fun _ => .ok none) 0 engineInit
              (.play 0 "a.mp3")).1
            .togglePlayPause).1
          .togglePlayPause).1).2
      = [.progress 2] ∧
    specProgressPosition 0 2 12 = 10 ∧ (2 : Nat) ≠ 10 := by
  exact ⟨rfl, rfl, by decide⟩

/-! ## C5: device-initialization failure reporting -/

/-- C5 (code bug, evaluated at the failing input).  When no audio output
device is available, `player::start` still returns `Ok(handle)` — the
`OutputStream::try_default().unwrap()` lives inside the spawned thread and
panics there only after `start` has already reported success, contradicting
both the claim and `start`'s own doc comment ("Returns an error if the
audio output stream cannot be initialized"). -/
theorem c5_eval :
    (playerStart false).returned = Except.ok () ∧
    (playerStart false).threadPanicsAtInit = true :=
  ⟨rfl, rfl⟩

/-! ## C6: `Play` with an unreadable path -/

/-- C6: a `Play` command whose path fails to open or decode makes the
engine emit exactly one `Error` event and nothing else, leaves it with no
loaded sink (`Idle`, the old sink already taken and stopped), makes the
periodic check emit no `Progress`/`TrackEnded` for the attempt, and leaves
it ready to process a subsequent successful `Play` normally. -/
theorem c6_play_failure (st : EngineState) (fs : String → OpenOutcome)
    (idx : Nat) (path : String) (now : Nat)
    (h : fs path = .openFail ∨ fs path = .decodeFail) :
    (∃ msg, processCommand fs now st (.play idx path)
        = ({ st with sink := none }, [.error msg])) ∧
    (∀ now2 drained,
      periodicTick now2 drained (processCommand fs now st (.play idx path)).1
        = ((processCommand fs now st (.play idx path)).1, [])) ∧
    (∀ (fs2 : String → OpenOutcome) now2 idx2 path2 dur,
      fs2 path2 = .ok dur →
      processCommand fs2 now2 (processCommand fs now st (.play idx path)).1
          (.play idx2 path2)
        = ({ st with sink := some false, startAt := some now2, pausedAcc := 0 },
           [.trackStarted idx2 dur])) := by
  rcases h with h | h
  · refine ⟨⟨"无法打开文件: " ++ path, ?_⟩, ?_, ?_⟩
    · simp [processCommand, h]
    · intro now2 drained
      simp [processCommand, h, periodicTick]
    · intro fs2 now2 idx2 path2 dur h2
      simp [processCommand, h, h2]
  · refine ⟨⟨"不支持的格式: " ++ path, ?_⟩, ?_, ?_⟩
    · simp [processCommand, h]
    · intro now2 drained
      simp [processCommand, h, periodicTick]
    · intro fs2 now2 idx2 path2 dur h2
      simp [processCommand, h, h2]

/-- C6: witness at a file system where every open fails. -/
theorem c6_play_failure_witness :
    (∃ msg, processCommand (fun _ => OpenOutcome.openFail) 0 engineInit
        (.play 0 "x.mp3")
        = ({ engineInit with sink := none }, [.error msg])) ∧
    (∀ now2 drained,
      periodicTick now2 drained
          (processCommand (fun _ => OpenOutcome.openFail) 0 engineInit
            (.play 0 "x.mp3")).1
        = ((processCommand (fun _ => OpenOutcome.openFail) 0 engineInit
            (.play 0 "x.mp3")).1, [])) ∧
    (∀ (fs2 : String → OpenOutcome) now2 idx2 path2 dur,
      fs2 path2 = .ok dur →
      processCommand fs2 now2
          (processCommand (fun _ => OpenOutcome.openFail) 0 engineInit
            (.play 0 "x.mp3")).1
          (.play idx2 path2)
        = ({ engineInit with
               sink := some false
               startAt := some now2
               pausedAcc := 0 },
           [.trackStarted idx2 dur])) :=
  c6_play_failure engineInit (fun _ => OpenOutcome.openFail) 0 "x.mp3" 0
    (Or.inl rfl)

/-! ## C7: vertical band geometry -/

/-- C7: for every terminal with width ≥ 20 and height ≥ 10, the four
vertical bands (now-playing, middle/track-list, playback-control,
status-bar) are ordered top-to-bottom, pairwise non-overlapping (each band
ends no lower than the next begins), and their summed height is at most the
terminal height. -/
theorem c7_layout_bands (w h : Nat) (_hw : 20 ≤ w) (_hh : 10 ≤ h) :
    (calculate_layout w h).now_playing.y = 0 ∧
    (calculate_layout w h).now_playing.y
        + (calculate_layout w h).now_playing.height
      ≤ (calculate_layout w h).track_list.y ∧
    (calculate_layout w h).track_list.y
        + (calculate_layout w h).track_list.height
      ≤ (calculate_layout w h).playback_control.y ∧
    (calculate_layout w h).playback_control.y
        + (calculate_layout w h).playback_control.height
      ≤ (calculate_layout w h).status_bar.y ∧
    (calculate_layout w h).now_playing.height
        + (calculate_layout w h).track_list.height
        + (calculate_layout w h).playback_control.height
        + (calculate_layout w h).status_bar.height
      ≤ h := by
  simp only [calculate_layout, splitVertical, splitPercent55, is_compact_mode]
  split_ifs <;> simp <;> omega

/-- C7: witness at an 80×24 terminal. -/
theorem c7_layout_bands_witness :
    (calculate_layout 80 24).now_playing.y = 0 ∧
    (calculate_layout 80 24).now_playing.y
        + (calculate_layout 80 24).now_playing.height
      ≤ (calculate_layout 80 24).track_list.y ∧
    (calculate_layout 80 24).track_list.y
        + (calculate_layout 80 24).track_list.height
      ≤ (calculate_layout 80 24).playback_control.y ∧
    (calculate_layout 80 24).playback_control.y
        + (calculate_layout 80 24).playback_control.height
      ≤ (calculate_layout 80 24).status_bar.y ∧
    (calculate_layout 80 24).now_playing.height
        + (calculate_layout 80 24).track_list.height
        + (calculate_layout 80 24).playback_control.height
        + (calculate_layout 80 24).status_bar.height
      ≤ 24 :=
  c7_layout_bands 80 24 (by decide) (by decide)

/-! ## C8: status-bar geometry -/

/-- C8: counterexample.  At terminal size 80×0 there is no vertical space,
every band is forced to height 0 (all regions lie inside the terminal
area), so the status bar does not have height exactly 1 — refuting the
claim's "for every terminal size". -/
theorem c8_counterexample :
    (calculate_layout 80 0).status_bar.height ≠ 1 := by decide

/-- C8 (amended): for every terminal size the status bar's bottom edge
equals the terminal height, and whenever the height is at least 8 (room
for the reduced fixed bands) the status bar has height exactly 1; at
smaller heights it is truncated, down to height 0 at height 0. -/
theorem c8_amended (w h : Nat) :
    (calculate_layout w h).status_bar.y
        + (calculate_layout w h).status_bar.height = h ∧
    (8 ≤ h → (calculate_layout w h).status_bar.height = 1) := by
  simp only [calculate_layout, splitVertical, splitPercent55, is_compact_mode]
  split_ifs <;> simp <;> omega

/-- C8 (amended): witness at an 80×24 terminal. -/
theorem c8_amended_witness :
    (calculate_layout 80 24).status_bar.y
        + (calculate_layout 80 24).status_bar.height = 24 ∧
    (calculate_layout 80 24).status_bar.height = 1 :=
  ⟨(c8_amended 80 24).1, (c8_amended 80 24).2 (by decide)⟩

/-! ## C9: horizontal split of the middle band -/

/-- C9: for every width ≥ 80 a visualization region is produced; the track
list and visualization partition the middle band's width (the full terminal
width) with the track list taking between 50% and 60% and the
visualization between 40% and 50%; for every width < 80 no visualization
region is produced and the track list is the full-width middle band. -/
theorem c9_split (w h : Nat) :
    (80 ≤ w →
      ∃ v, (calculate_layout w h).visualization = some v ∧
        (calculate_layout w h).track_list.width + v.width = w ∧
        (1 / 2 : ℚ) ≤ ((calculate_layout w h).track_list.width : ℚ) / w ∧
        ((calculate_layout w h).track_list.width : ℚ) / w ≤ 3 / 5 ∧
        (2 / 5 : ℚ) ≤ (v.width : ℚ) / w ∧
        (v.width : ℚ) / w ≤ 1 / 2) ∧
    (w < 80 →
      (calculate_layout w h).visualization = none ∧
      (calculate_layout w h).track_list.x = 0 ∧
      (calculate_layout w h).track_list.width = w) := by
  constructor
  · intro hw
    have hcm : is_compact_mode w = false := by
      simp only [is_compact_mode, decide_eq_false_iff_not]
      omega
    have hdm := Nat.div_add_mod (55 * w + 50) 100
    have hml : (55 * w + 50) % 100 < 100 := Nat.mod_lt _ (by norm_num)
    have h1 : 100 * ((55 * w + 50) / 100) ≤ 55 * w + 50 := by omega
    have h2 : 55 * w + 50 < 100 * ((55 * w + 50) / 100) + 100 := by omega
    have hw2 : w ≤ 2 * ((55 * w + 50) / 100) := by omega
    have hw3 : 5 * ((55 * w + 50) / 100) ≤ 3 * w := by omega
    have htw : (55 * w + 50) / 100 ≤ w := by omega
    have hwpos : (0 : ℚ) < (w : ℚ) := by
      have : 0 < w := by omega
      exact_mod_cast this
    have hcast : ((w - (55 * w + 50) / 100 : Nat) : ℚ)
        = (w : ℚ) - (((55 * w + 50) / 100 : Nat) : ℚ) := Nat.cast_sub htw
    have hq2 : (w : ℚ) ≤ 2 * (((55 * w + 50) / 100 : Nat) : ℚ) := by
      exact_mod_cast hw2
    have hq3 : 5 * (((55 * w + 50) / 100 : Nat) : ℚ) ≤ 3 * (w : ℚ) := by
      exact_mod_cast hw3
    have hviz : (calculate_layout w h).visualization
        = some ⟨(55 * w + 50) / 100,
                (calculate_layout w h).track_list.y,
                w - (55 * w + 50) / 100,
                (calculate_layout w h).track_list.height⟩ := by
      simp [calculate_layout, splitPercent55, hcm]
    have htlw : (calculate_layout w h).track_list.width
        = (55 * w + 50) / 100 := by
      simp [calculate_layout, splitPercent55, hcm]
    refine ⟨_, hviz, ?_, ?_, ?_, ?_, ?_⟩
    · rw [htlw]
      show (55 * w + 50) / 100 + (w - (55 * w + 50) / 100) = w
      omega
    · rw [htlw, le_div_iff₀ hwpos]
      linarith
    · rw [htlw, div_le_iff₀ hwpos]
      linarith
    · show (2 / 5 : ℚ) ≤ ((w - (55 * w + 50) / 100 : Nat) : ℚ) / w
      rw [le_div_iff₀ hwpos, hcast]
      linarith
    · show ((w - (55 * w + 50) / 100 : Nat) : ℚ) / w ≤ 1 / 2
      rw [div_le_iff₀ hwpos, hcast]
      linarith
  · intro hw
    have hcm : is_compact_mode w = true := by
      simp only [is_compact_mode, decide_eq_true_eq]
      omega
    simp [calculate_layout, hcm]

/-- C9: witness at widths 100 (split) and 60 (compact). -/
theorem c9_split_witness :
    (∃ v, (calculate_layout 100 30).visualization = some v ∧
      (calculate_layout 100 30).track_list.width + v.width = 100 ∧
      (1 / 2 : ℚ) ≤ ((calculate_layout 100 30).track_list.width : ℚ) / 100 ∧
      ((calculate_layout 100 30).track_list.width : ℚ) / 100 ≤ 3 / 5 ∧
      (2 / 5 : ℚ) ≤ (v.width : ℚ) / 100 ∧
      (v.width : ℚ) / 100 ≤ 1 / 2) ∧
    ((calculate_layout 60 30).visualization = none ∧
      (calculate_layout 60 30).track_list.x = 0 ∧
      (calculate_layout 60 30).track_list.width = 60) :=
  ⟨by
      have h := (c9_split 100 30).1 (by decide)
      simpa using h,
   (c9_split 60 30).2 (by decide)⟩
